import Mathlib

/-!
Verification development for the Telegram personal-assistant bot
(`ai_handler.py`, `email_service.py`, `reminder_service.py`,
`calendar_handler.py`, `handlers/scheduled_tasks.py`, `scheduler.py`).

Python strings are embedded as `String` / `List Char`, Python `datetime`
values (all in the single fixed Asia/Phnom_Penh timezone) as the record
`PyDateTime`, JSON-backed dict stores as association lists preserving
insertion order, and fallible Python operations as `Except`/`Option`
results.  Every definition is translated from the repository source;
line references are given in each doc comment.
-/

/-! ## Basic string machinery (Python `str` helpers) -/

/-- Python substring test `pat in s` on character lists. -/
def strContains (pat : List Char) : List Char → Bool
  | [] => pat.isEmpty
  | c :: rest => pat.isPrefixOf (c :: rest) || strContains pat rest

/-- `pat in s` for `String`s (Python `in` on `str`). -/
def pyIn (pat s : String) : Bool := strContains pat.toList s.toList

/-- Python `str.lower()` (ASCII case folding suffices for the keyword lists). -/
def pyLower (s : String) : String := ⟨s.toList.map Char.toLower⟩

/-- Python `any(p in s for p in pats)`. -/
def anyPatIn (pats : List String) (s : String) : Bool := pats.any (fun p => pyIn p s)

/-- Character-list membership (Python `'@' in s`). -/
def hasChar (c : Char) (s : String) : Bool := s.toList.contains c

/-! ## Python `datetime` model

All datetimes in the program are aware datetimes in the single timezone
`Asia/Phnom_Penh` (no DST), so comparison of instants coincides with
lexicographic comparison of the civil fields. -/

structure PyDateTime where
  year : Nat
  month : Nat
  day : Nat
  hour : Nat
  minute : Nat
  second : Nat
  microsecond : Nat
deriving DecidableEq, Repr

namespace PyDateTime

/-- Field tuple used for chronological comparison. -/
def key (t : PyDateTime) : Nat × Nat × Nat × Nat × Nat × Nat × Nat :=
  (t.year, t.month, t.day, t.hour, t.minute, t.second, t.microsecond)

/-- Python `datetime` `<` (same timezone, hence field-lexicographic). -/
def lt (a b : PyDateTime) : Bool :=
  if a.year ≠ b.year then a.year < b.year
  else if a.month ≠ b.month then a.month < b.month
  else if a.day ≠ b.day then a.day < b.day
  else if a.hour ≠ b.hour then a.hour < b.hour
  else if a.minute ≠ b.minute then a.minute < b.minute
  else if a.second ≠ b.second then a.second < b.second
  else a.microsecond < b.microsecond

/-- Python `t.replace(second=0, microsecond=0)`. -/
def floorMinute (t : PyDateTime) : PyDateTime :=
  { t with second := 0, microsecond := 0 }

end PyDateTime

/-- Python `t.replace(minute=m, second=0, microsecond=0)`: `datetime.replace`
validates `0 <= minute <= 59` and raises `ValueError` otherwise. -/
def pyReplaceMinuteZeroSec (t : PyDateTime) (m : Nat) : Except String PyDateTime :=
  if m ≤ 59 then
    .ok { t with minute := m, second := 0, microsecond := 0 }
  else
    .error "minute must be in 0..59"

/-- Same-minute race-condition adjustment of `AIHandler.execute_email_action`
(`ai_handler.py` lines 521-529) and `AIHandler.execute_reminder_action`
(lines 743-751), which contain the identical code: if the resolved send
time falls in the same whole minute as the current time, the code runs
`send_time.replace(minute=send_time.minute + 1, second=0, microsecond=0)`. -/
def raceAdjust (sendTime now : PyDateTime) : Except String PyDateTime :=
  let currentMinute := now.floorMinute
  let scheduledMinute := sendTime.floorMinute
  if scheduledMinute = currentMinute then
    pyReplaceMinuteZeroSec sendTime (sendTime.minute + 1)
  else
    .ok sendTime

/-- A resolved timestamp at 10:59:00 with the reference time at 10:59:30 of
the same day: both fall in the same whole minute. -/
def sendAt59 : PyDateTime := ⟨2025, 6, 1, 10, 59, 0, 0⟩

def nowAt59 : PyDateTime := ⟨2025, 6, 1, 10, 59, 30, 0⟩

def sendAt30 : PyDateTime := ⟨2025, 6, 1, 10, 30, 0, 0⟩

def nowAt30 : PyDateTime := ⟨2025, 6, 1, 10, 30, 30, 0⟩

/-! ## `datetime.strptime`

`EmailService.parse_send_time` / `ReminderService.parse_remind_time` try a
cascade of `strptime` format strings.  We embed CPython `_strptime`: each
directive compiles to a regex alternation (matched with `re.IGNORECASE`),
the whole string must be consumed, and the matched fields must then form a
valid `datetime` (day within month, second below 60, year at least 1). -/

/-- A `strptime` format directive (`%Y`, `%m`, ... or a literal character). -/
inductive Dir where
  | Y | m | d | H | M | S | I | p | B
  | lit (c : Char)

/-- Numeric value of a digit character. -/
def dv (c : Char) : Nat := c.toNat - 48

/-- Candidate parses (value, rest) of a directive at the head of the input,
in the order of the CPython `_strptime.TimeRE` regex alternations. -/
def dirCands : Dir → List Char → List (Nat × List Char)
  -- %Y: \d\d\d\d
  | .Y, a :: b :: c :: d :: rest =>
      if a.isDigit && b.isDigit && c.isDigit && d.isDigit then
        [(dv a * 1000 + dv b * 100 + dv c * 10 + dv d, rest)]
      else []
  | .Y, _ => []
  -- %m: 1[0-2]|0[1-9]|[1-9]
  | .m, l =>
      (match l with
       | '1' :: b :: rest => if '0' ≤ b && b ≤ '2' then [(10 + dv b, rest)] else []
       | _ => []) ++
      (match l with
       | '0' :: b :: rest => if '1' ≤ b && b ≤ '9' then [(dv b, rest)] else []
       | _ => []) ++
      (match l with
       | a :: rest => if '1' ≤ a && a ≤ '9' then [(dv a, rest)] else []
       | _ => [])
  -- %d: 3[01]|[12]\d|0[1-9]|[1-9]
  | .d, l =>
      (match l with
       | '3' :: b :: rest => if '0' ≤ b && b ≤ '1' then [(30 + dv b, rest)] else []
       | _ => []) ++
      (match l with
       | a :: b :: rest =>
           if ('1' ≤ a && a ≤ '2') && b.isDigit then [(dv a * 10 + dv b, rest)] else []
       | _ => []) ++
      (match l with
       | '0' :: b :: rest => if '1' ≤ b && b ≤ '9' then [(dv b, rest)] else []
       | _ => []) ++
      (match l with
       | a :: rest => if '1' ≤ a && a ≤ '9' then [(dv a, rest)] else []
       | _ => [])
  -- %H: 2[0-3]|[0-1]\d|\d
  | .H, l =>
      (match l with
       | '2' :: b :: rest => if '0' ≤ b && b ≤ '3' then [(20 + dv b, rest)] else []
       | _ => []) ++
      (match l with
       | a :: b :: rest =>
           if ('0' ≤ a && a ≤ '1') && b.isDigit then [(dv a * 10 + dv b, rest)] else []
       | _ => []) ++
      (match l with
       | a :: rest => if a.isDigit then [(dv a, rest)] else []
       | _ => [])
  -- %M: [0-5]\d|\d
  | .M, l =>
      (match l with
       | a :: b :: rest =>
           if ('0' ≤ a && a ≤ '5') && b.isDigit then [(dv a * 10 + dv b, rest)] else []
       | _ => []) ++
      (match l with
       | a :: rest => if a.isDigit then [(dv a, rest)] else []
       | _ => [])
  -- %S: 6[0-1]|[0-5]\d|\d
  | .S, l =>
      (match l with
       | '6' :: b :: rest => if '0' ≤ b && b ≤ '1' then [(60 + dv b, rest)] else []
       | _ => []) ++
      (match l with
       | a :: b :: rest =>
           if ('0' ≤ a && a ≤ '5') && b.isDigit then [(dv a * 10 + dv b, rest)] else []
       | _ => []) ++
      (match l with
       | a :: rest => if a.isDigit then [(dv a, rest)] else []
       | _ => [])
  -- %I: 1[0-2]|0[1-9]|[1-9]
  | .I, l =>
      (match l with
       | '1' :: b :: rest => if '0' ≤ b && b ≤ '2' then [(10 + dv b, rest)] else []
       | _ => []) ++
      (match l with
       | '0' :: b :: rest => if '1' ≤ b && b ≤ '9' then [(dv b, rest)] else []
       | _ => []) ++
      (match l with
       | a :: rest => if '1' ≤ a && a ≤ '9' then [(dv a, rest)] else []
       | _ => [])
  -- %p: AM|PM, case-insensitive; value 0 = AM, 1 = PM
  | .p, a :: b :: rest =>
      if a.toLower = 'a' && b.toLower = 'm' then [(0, rest)]
      else if a.toLower = 'p' && b.toLower = 'm' then [(1, rest)]
      else []
  | .p, _ => []
  -- %B: full month names, case-insensitive
  | .B, l =>
      (List.range 12).filterMap fun i =>
        let name := monthName (i + 1)
        if name.isPrefixOf (l.map Char.toLower) then
          some (i + 1, l.drop name.length)
        else none
  -- literal characters (re.IGNORECASE folds case)
  | .lit c, a :: rest => if a.toLower = c.toLower then [(0, rest)] else []
  | .lit _, [] => []
where
  /-- Lowercased English month names used by `%B`. -/
  monthName : Nat → List Char
    | 1 => "january".toList
    | 2 => "february".toList
    | 3 => "march".toList
    | 4 => "april".toList
    | 5 => "may".toList
    | 6 => "june".toList
    | 7 => "july".toList
    | 8 => "august".toList
    | 9 => "september".toList
    | 10 => "october".toList
    | 11 => "november".toList
    | _ => "december".toList

/-- Fields recovered by a `strptime` match, with CPython defaults. -/
structure TimeFields where
  year : Nat := 1900
  month : Nat := 1
  day : Nat := 1
  hour : Nat := 0
  minute : Nat := 0
  second : Nat := 0
  hour12 : Option Nat := none
  isPM : Option Bool := none

/-- Record a directive's value in the field structure. -/
def applyDir (st : TimeFields) : Dir → Nat → TimeFields
  | .Y, v => { st with year := v }
  | .m, v => { st with month := v }
  | .d, v => { st with day := v }
  | .H, v => { st with hour := v }
  | .M, v => { st with minute := v }
  | .S, v => { st with second := v }
  | .I, v => { st with hour12 := some v }
  | .p, v => { st with isPM := some (v = 1) }
  | .B, v => { st with month := v }
  | .lit _, _ => st

/-- All complete matches of a format against the input (the regex must
consume the entire string: leftover input is "unconverted data"). -/
def runFmt : List Dir → TimeFields → List Char → List TimeFields
  | [], st, l => if l.isEmpty then [st] else []
  | dir :: ds, st, l =>
      ((dirCands dir l).map fun vr => runFmt ds (applyDir st dir vr.1) vr.2).flatten

def isLeapYear (y : Nat) : Bool := y % 4 = 0 && (y % 100 ≠ 0 || y % 400 = 0)

def daysInMonth (y m : Nat) : Nat :=
  if m = 2 then (if isLeapYear y then 29 else 28)
  else if m = 4 || m = 6 || m = 9 || m = 11 then 30
  else 31

/-- Turn matched fields into a `datetime`: `%I`/`%p` combine into a 24-hour
value, and the `datetime` constructor validates the calendar fields
(raising `ValueError` on e.g. February 30 or second 61). -/
def buildDT (st : TimeFields) : Option PyDateTime :=
  let hour := match st.hour12, st.isPM with
    | some h12, some pm =>
        if pm then (if h12 = 12 then 12 else h12 + 12)
        else (if h12 = 12 then 0 else h12)
    | some h12, none => h12
    | none, _ => st.hour
  if 1 ≤ st.year && 1 ≤ st.day && st.day ≤ daysInMonth st.year st.month &&
      hour ≤ 23 && st.second ≤ 59 then
    some ⟨st.year, st.month, st.day, hour, st.minute, st.second, 0⟩
  else
    none

/-- `datetime.strptime(s, fmt)` as an `Option` (a `ValueError` becomes
`none`, matching the `except ValueError: pass` in the source). -/
def pyStrptime (fmt : List Dir) (l : List Char) : Option PyDateTime :=
  match runFmt fmt {} l with
  | [] => none
  | st :: _ => buildDT st

/-- Format `'%Y-%m-%d %H:%M'`. -/
def fmtYmdHM : List Dir :=
  [.Y, .lit '-', .m, .lit '-', .d, .lit ' ', .H, .lit ':', .M]

/-- Format `'%Y-%m-%d'`. -/
def fmtYmd : List Dir := [.Y, .lit '-', .m, .lit '-', .d]

/-- Format `'%H:%M'`. -/
def fmtHM : List Dir := [.H, .lit ':', .M]

/-- The `formats_to_try` cascade of `parse_send_time` (`email_service.py`
lines 212-219) and `parse_remind_time` (`reminder_service.py` 172-179). -/
def flexibleFormats : List (List Dir) :=
  [ [.Y, .lit '-', .m, .lit '-', .d, .lit ' ', .I, .lit ':', .M, .lit ' ', .p],
    [.Y, .lit '-', .m, .lit '-', .d, .lit ' ', .H, .lit ':', .M, .lit ':', .S],
    [.m, .lit '/', .d, .lit '/', .Y, .lit ' ', .H, .lit ':', .M],
    [.m, .lit '/', .d, .lit '/', .Y, .lit ' ', .I, .lit ':', .M, .lit ' ', .p],
    [.B, .lit ' ', .d, .lit ',', .lit ' ', .Y, .lit ' ', .H, .lit ':', .M],
    [.B, .lit ' ', .d, .lit ',', .lit ' ', .Y, .lit ' ', .I, .lit ':', .M, .lit ' ', .p] ]

/-- Python `str.strip()`. -/
def pyStrip (l : List Char) : List Char :=
  ((l.dropWhile Char.isWhitespace).reverse.dropWhile Char.isWhitespace).reverse

/-- First success of the flexible-format loop. -/
def tryFormats : List (List Dir) → List Char → Option PyDateTime
  | [], _ => none
  | f :: fs, l =>
      match pyStrptime f l with
      | some dt => some dt
      | none => tryFormats fs l

/-- `EmailService.parse_send_time` (`email_service.py` lines 159-236) and
the identical `ReminderService.parse_remind_time` (`reminder_service.py`
lines 119-196): `"now"`/empty resolve to the current time, then a cascade
of explicit format branches, and `None` when every format fails.
Timezone localization is the identity in the fixed-timezone model. -/
def parseSendTime (now : PyDateTime) (sendTimeStr : String) : Option PyDateTime :=
  if sendTimeStr = "" ∨ pyLower sendTimeStr = "now" then some now
  else
    let l := pyStrip sendTimeStr.toList
    -- "YYYY-MM-DD HH:MM"
    let b1 := if l.length = 16 ∧ l.contains ' ' then pyStrptime fmtYmdHM l else none
    match b1 with
    | some dt => some dt
    | none =>
      -- "YYYY-MM-DD", defaulting to noon via dt.replace(hour=12)
      let b2 :=
        if l.length = 10 ∧ l.contains '-' then
          (pyStrptime fmtYmd l).map fun dt => { dt with hour := 12 }
        else none
      match b2 with
      | some dt => some dt
      | none =>
        -- "HH:MM", combined with today's date
        let b3 :=
          if l.contains ':' ∧ l.length ≤ 5 then
            (pyStrptime fmtHM l).map fun dt =>
              { year := now.year, month := now.month, day := now.day,
                hour := dt.hour, minute := dt.minute, second := 0, microsecond := 0 }
          else none
        match b3 with
        | some dt => some dt
        | none => tryFormats flexibleFormats l

/-! ## Email dispatch decision (`AIHandler.execute_email_action`) -/

/-- Outcome of the scheduling decision of `execute_email_action`
(`ai_handler.py` lines 504-562). -/
inductive EmailDispatchOutcome where
  | scheduled (t : PyDateTime)
  | sentNow (success : Bool)
deriving DecidableEq, Repr

/-- The send-time handling and schedule-vs-immediate decision of
`AIHandler.execute_email_action` (`ai_handler.py` lines 504-562), given
the oracle-extracted `send_time` string, the reference current time, and
the SMTP transport outcome.  A `send_time` that is empty or `"now"` is
never parsed; a parse failure leaves `send_time = None` ("defaulting to
now"); an uncaught `ValueError` from the race adjustment surfaces as the
generic error result of the outer `except`. -/
def executeEmailSendPath (sendTimeStr : String) (now : PyDateTime) (smtpOk : Bool) :
    Except String EmailDispatchOutcome :=
  let sendTime : Option PyDateTime :=
    if sendTimeStr ≠ "" ∧ pyLower sendTimeStr ≠ "now" then parseSendTime now sendTimeStr
    else none
  match sendTime with
  | none => .ok (.sentNow smtpOk)
  | some t => do
      let t' ← raceAdjust t now
      if now.lt t' then .ok (.scheduled t') else .ok (.sentNow smtpOk)

/-! ## Email-address regex

`AIHandler.detect_email_action` (`ai_handler.py` line 384) searches the
message for `\b[A-Za-z0-9._%+-]+@[A-Za-z0-9.-]+\.[A-Z|a-z]{2,}\b`.
`re.search` succeeds iff some decomposition of the text matches, so the
embedding scans every start position with a backtracking matcher. -/

/-- Python regex `\w` (ASCII relevant range). -/
def isWordChar (c : Char) : Bool := c.isAlphanum || c = '_'

/-- Character class `[A-Za-z0-9._%+-]`. -/
def isLocalChar (c : Char) : Bool :=
  c.isAlphanum || c = '.' || c = '_' || c = '%' || c = '+' || c = '-'

/-- Character class `[A-Za-z0-9.-]`. -/
def isDomChar (c : Char) : Bool := c.isAlphanum || c = '.' || c = '-'

/-- Character class `[A-Z|a-z]` (the class literally contains `|`). -/
def isTldChar (c : Char) : Bool := c.isAlpha || c = '|'

/-- After the final dot: `[A-Z|a-z]{2,}\b` — at least two class characters
followed by a word boundary.  `count` chars are already matched and
`lastWord` records whether the last of them is a word character. -/
def tldGo (count : Nat) (lastWord : Bool) : List Char → Bool
  | [] => 2 ≤ count && lastWord
  | c :: rest =>
      (2 ≤ count && (lastWord != isWordChar c)) ||
      (isTldChar c && tldGo (count + 1) (isWordChar c) rest)

/-- `[A-Z|a-z]{2,}\b` at the head of the input. -/
def tldOk : List Char → Bool
  | [] => false
  | c :: rest => isTldChar c && tldGo 1 (isWordChar c) rest

/-- Rest of `[A-Za-z0-9.-]+\.[A-Z|a-z]{2,}\b` after at least one domain
character was consumed: either the final `\.` or one more domain char. -/
def domScan : List Char → Bool
  | [] => false
  | c :: rest => (c = '.' && tldOk rest) || (isDomChar c && domScan rest)

/-- `[A-Za-z0-9.-]+\.[A-Z|a-z]{2,}\b` at the head of the input. -/
def afterAt : List Char → Bool
  | [] => false
  | c :: rest => isDomChar c && domScan rest

/-- Rest of `[A-Za-z0-9._%+-]+@...` after at least one local character:
either the `@` or one more local char. -/
def localScan : List Char → Bool
  | [] => false
  | c :: rest => (c = '@' && afterAt rest) || (isLocalChar c && localScan rest)

/-- A full regex match starting exactly at the head of the input, with
`prev` the character before the match for the leading `\b`. -/
def emailAtPos (prev : Option Char) : List Char → Bool
  | [] => false
  | c :: rest =>
      let prevWord := match prev with | none => false | some pc => isWordChar pc
      (prevWord != isWordChar c) && isLocalChar c && localScan rest

/-- `re.search` over all start positions. -/
def emailSearch (prev : Option Char) : List Char → Bool
  | [] => false
  | c :: rest => emailAtPos prev (c :: rest) || emailSearch (some c) rest

/-- `re.search(email_regex, user_message)` of `detect_email_action`,
applied to the original (not lowercased) message. -/
def hasEmailAddress (msg : String) : Bool := emailSearch none msg.toList

/-! ## Intent detection (`AIHandler`) -/

/-- `email_patterns` of `detect_email_action` (`ai_handler.py` 375-380). -/
def emailPatterns : List String :=
  ["send email", "email", "send an email", "send a message",
   "send to", "email to", "message to", "write to",
   "send reminder", "send notification", "notify",
   "compose email", "draft email", "send mail"]

/-- `AIHandler.detect_email_action` (`ai_handler.py` lines 362-396):
returns the send-email action (carrying the message) iff the lowercased
text contains an email keyword and the original text contains an
email-address token. -/
def detectEmailAction (msg : String) : Option String :=
  if anyPatIn emailPatterns (pyLower msg) && hasEmailAddress msg then some msg else none

/-- `create_patterns` of `detect_calendar_action` (`ai_handler.py` 294-301). -/
def createPatterns : List String :=
  ["schedule a", "add to calendar", "create meeting", "book appointment",
   "set reminder", "plan meeting", "i have class at", "i have meeting at",
   "schedule meeting", "book a", "arrange meeting", "set up meeting",
   "create appointment", "can you set me", "set me a", "can you schedule",
   "can you create", "can you add", "can you book", "set a schedule",
   "make me a", "add a", "put on my calendar", "schedule for me"]

/-- `delete_patterns` of `detect_calendar_action` (`ai_handler.py` 303-310). -/
def deletePatterns : List String :=
  ["remove my", "delete my", "cancel my", "clear my schedule", "remove my schedule",
   "delete all events", "clear all events", "remove all meetings", "cancel all",
   "clear my calendar", "remove everything", "delete everything",
   "i want to remove all", "delete all my", "remove all of my",
   "remove all my meetings", "delete all my meetings", "cancel all my meetings",
   "clear all my events", "remove all my events", "delete all my events"]

/-- `query_patterns` of `detect_calendar_action` (`ai_handler.py` 313-317). -/
def queryPatterns : List String :=
  ["what\x27s on my", "what do i have", "am i free", "do i have", "check my",
   "show my", "when is my", "any meetings", "any events today", "any events tomorrow",
   "schedule today", "schedule tomorrow", "busy today", "busy tomorrow"]

/-- `confirmation_words` of `detect_calendar_action` (`ai_handler.py` 340). -/
def confirmationWords : List String :=
  ["yes", "sure", "confirm", "definitely", "absolutely"]

/-- Calendar action variants detected by `detect_calendar_action`. -/
inductive CalAction where
  | deletePat (pattern : String)
  | clearAll (confirmed : Bool)
  | create
deriving DecidableEq, Repr

/-- Regex `"([^"]*)"` helper: the characters up to the next quote. -/
def untilQuote : List Char → Option (List Char)
  | [] => none
  | '"' :: _ => some []
  | c :: rest => (untilQuote rest).map (c :: ·)

/-- First quoted substring of the text (`re.search(r'"([^"]*)"', message)`). -/
def quotedSubstr : List Char → Option String
  | [] => none
  | '"' :: rest => (untilQuote rest).map List.asString
  | _ :: rest => quotedSubstr rest

/-- `AIHandler._extract_delete_pattern` (`ai_handler.py` lines 398-419). -/
def extractDeletePattern (msg : String) : String :=
  let low := pyLower msg
  if pyIn "meeting" low then "meeting"
  else if pyIn "class" low then "class"
  else if pyIn "appointment" low then "appointment"
  else if pyIn "call" low then "call"
  else match quotedSubstr msg.toList with
    | some q => q
    | none => ""

/-- `AIHandler.detect_calendar_action` (`ai_handler.py` lines 281-360).
Queries are rejected first; then deletion patterns (with the `all my
meetings`/`all my events` narrowing and the clear-all confirmation-word
scan); then creation patterns.  The unreachable fall-through of the inner
`all my ...` conditional (taken only when neither `meetings` nor `events`
occurs) continues to the creation check, as in the source. -/
def detectCalendarAction (msg : String) : Option CalAction :=
  let low := pyLower msg
  let createCheck := if anyPatIn createPatterns low then some CalAction.create else none
  if anyPatIn queryPatterns low then none
  else if anyPatIn deletePatterns low then
    if pyIn "all my meetings" low || pyIn "all my events" low then
      if pyIn "meetings" low then some (.deletePat "meeting")
      else if pyIn "events" low then some (.deletePat "event")
      else createCheck
    else if pyIn "clear my schedule" low || pyIn "clear my calendar" low ||
        pyIn "clear all" low then
      some (.clearAll (anyPatIn confirmationWords low))
    else
      some (.deletePat (extractDeletePattern msg))
  else createCheck

/-! ### Reminder detection time-pattern regexes (`ai_handler.py` 604-622) -/

/-- `(am|pm)` at the head of the input. -/
def amPmHere (l : List Char) : Bool :=
  ("am".toList).isPrefixOf l || ("pm".toList).isPrefixOf l

/-- `\d{1,2}:\d{2}` at the head of the input (the optional `(am|pm)?`
that follows in the source patterns never constrains matching). -/
def clockHere : List Char → Bool
  | d1 :: ':' :: m1 :: m2 :: _ => d1.isDigit && m1.isDigit && m2.isDigit
  | d1 :: d2 :: ':' :: m1 :: m2 :: _ =>
      d1.isDigit && d2.isDigit && m1.isDigit && m2.isDigit
  | _ => false

/-- `at \d{1,2}:\d{2}(am|pm)?` at the head of the input. -/
def atClockHere : List Char → Bool
  | 'a' :: 't' :: ' ' :: rest => clockHere rest
  | _ => false

/-- `\d{1,2}(am|pm)` at the head of the input. -/
def hourAmPmHere : List Char → Bool
  | d1 :: rest =>
      d1.isDigit &&
        (amPmHere rest ||
          (match rest with
           | d2 :: rest2 => d2.isDigit && amPmHere rest2
           | [] => false))
  | [] => false

/-- `at \d{1,2}(am|pm)` at the head of the input. -/
def atHourAmPmHere : List Char → Bool
  | 'a' :: 't' :: ' ' :: rest => hourAmPmHere rest
  | _ => false

/-- The unit alternation `(minute|hour|min|hr)` as a prefix. -/
def unitPrefix (l : List Char) : Bool :=
  ["minute", "hour", "min", "hr"].any fun u => (u.toList).isPrefixOf l

/-- `in \d+\s*(minute|hour|min|hr)` at the head of the input: the digit
run and whitespace run are forced (the unit words start with letters). -/
def relOffsetHere : List Char → Bool
  | 'i' :: 'n' :: ' ' :: rest =>
      (match rest with | c :: _ => c.isDigit | [] => false) &&
      unitPrefix ((rest.dropWhile Char.isDigit).dropWhile Char.isWhitespace)
  | _ => false

/-- Prefix `pre` followed by `\d`. -/
def afterPrefixDigit (pre : List Char) (l : List Char) : Bool :=
  pre.isPrefixOf l &&
    (match l.drop pre.length with | c :: _ => c.isDigit | [] => false)

/-- `.*remind` (a dot does not match a newline): some later occurrence of
`remind` with no intervening newline. -/
def noNlThenRemind : List Char → Bool
  | [] => false
  | c :: rest => ("remind".toList).isPrefixOf (c :: rest) || (c ≠ '\n' && noNlThenRemind rest)

/-- `\d{1,2}:\d{2}(am|pm)?.*remind` at the head of the input. -/
def clockThenRemindHere : List Char → Bool
  | d1 :: ':' :: m1 :: m2 :: rest =>
      d1.isDigit && m1.isDigit && m2.isDigit && noNlThenRemind rest
  | d1 :: d2 :: ':' :: m1 :: m2 :: rest =>
      d1.isDigit && d2.isDigit && m1.isDigit && m2.isDigit && noNlThenRemind rest
  | _ => false

/-- `\d{1,2}(am|pm).*remind` at the head of the input. -/
def hourAmPmThenRemindHere : List Char → Bool
  | d1 :: rest =>
      d1.isDigit &&
        ((amPmHere rest && noNlThenRemind (rest.drop 2)) ||
          (match rest with
           | d2 :: rest2 => d2.isDigit && amPmHere rest2 && noNlThenRemind (rest2.drop 2)
           | [] => false))
  | [] => false

/-- `re.search`: try the head pattern at every start position. -/
def searchHere (p : List Char → Bool) : List Char → Bool
  | [] => p []
  | c :: rest => p (c :: rest) || searchHere p rest

/-- `any(re.search(pattern, message_lower) for pattern in time_patterns)`
(`ai_handler.py` 605-615). -/
def hasTimePattern (l : List Char) : Bool :=
  searchHere atClockHere l || searchHere atHourAmPmHere l ||
  searchHere relOffsetHere l ||
  searchHere (afterPrefixDigit "tomorrow at ".toList) l ||
  strContains "later today".toList l ||
  strContains "tonight at".toList l ||
  searchHere (afterPrefixDigit "today at ".toList) l ||
  searchHere clockThenRemindHere l ||
  searchHere hourAmPmThenRemindHere l

/-- `time_start_patterns` (`ai_handler.py` 618-622), anchored with `^`. -/
def hasTimeStartPattern (l : List Char) : Bool :=
  atClockHere l || atHourAmPmHere l || clockHere l

/-- `reminder_patterns` of `detect_reminder_action` (`ai_handler.py` 595-602). -/
def reminderPatterns : List String :=
  ["remind me", "reminds me", "notify me", "tell me", "alert me",
   "set a reminder", "set reminder", "reminder",
   "wake me up", "ping me", "buzz me",
   "don\x27t let me forget", "make sure i remember",
   "you have to notify", "you have to remind",
   "you have to tell", "need to remind", "need to notify"]

/-- `email_exclusion_patterns` (`ai_handler.py` 625-627). -/
def emailExclusionPatterns : List String :=
  ["send email", "email to", "email ", "send to", "compose email"]

/-- `calendar_exclusion_patterns` (`ai_handler.py` 630-634). -/
def calendarExclusionPatterns : List String :=
  ["schedule", "calendar", "create meeting", "add to calendar",
   "meeting with", "appointment with", "book ", "i have class",
   "i have meeting", "schedule meeting"]

/-- `AIHandler.detect_reminder_action` (`ai_handler.py` lines 582-692):
a message containing `@` or an email/calendar exclusion phrase is never a
reminder; otherwise explicit reminder phrases, or a time pattern together
with the substring `me` or `i`, or a message-initial time pattern with
message length above 20, classify the message as a set-reminder action. -/
def detectReminderAction (msg : String) : Option String :=
  let low := (pyLower msg).toList
  if hasChar '@' msg then none
  else if emailExclusionPatterns.any (fun p => strContains p.toList low) then none
  else if calendarExclusionPatterns.any (fun p => strContains p.toList low) then none
  else
    let hasRem := reminderPatterns.any fun p => strContains p.toList low
    let hasTime := hasTimePattern low
    let hasTimeStart := hasTimeStartPattern low
    if hasRem then some msg
    else if (hasTime || hasTimeStart) &&
        (strContains "me".toList low || strContains "i".toList low) then some msg
    else if hasTimeStart && 20 < msg.length then some msg
    else none

/-! ## Message classification pipeline (`handlers/ai_chat.py`) -/

/-- Intent families of the spec's `IntentClassifier`. -/
inductive Intent where
  | calendarIntent (a : CalAction)
  | setReminder
  | sendEmail
  | chat
deriving DecidableEq, Repr

/-- The detection order of `handle_message` (`handlers/ai_chat.py` lines
26-81): calendar actions (only with an authenticated calendar), then
reminder actions, then email actions, else the conversational reply. -/
def classify (calendarAuthenticated : Bool) (msg : String) : Intent :=
  match (if calendarAuthenticated then detectCalendarAction msg else none) with
  | some a => .calendarIntent a
  | none =>
    match detectReminderAction msg with
    | some _ => .setReminder
    | none =>
      match detectEmailAction msg with
      | some _ => .sendEmail
      | none => .chat

/-! ## Calendar action execution (`AIHandler.execute_calendar_action`) -/

/-- Calls made to the calendar collaborator. -/
inductive CalCall where
  | clearAllEvents
  | deleteByTitle (pattern : String)
  | createEvent
deriving DecidableEq, Repr

/-- User-visible result kinds of `execute_calendar_action`. -/
inductive CalExecResult where
  | notAvailable
  | cleared
  | confirmRequest
  | deleted (pattern : String)
  | needPattern
  | created
  | couldNotParse
  | unknownAction
deriving DecidableEq, Repr

/-- `AIHandler.execute_calendar_action` (`ai_handler.py` lines 421-468):
the result together with the calendar-collaborator calls it performs.
`meetingParseOk` abstracts the external `parse_meeting_request` oracle. -/
def executeCalendarAction (authenticated : Bool) (meetingParseOk : Bool) (a : CalAction) :
    CalExecResult × List CalCall :=
  if !authenticated then (.notAvailable, [])
  else
    match a with
    | .clearAll confirmed =>
        if confirmed then (.cleared, [.clearAllEvents]) else (.confirmRequest, [])
    | .deletePat pat =>
        if pat ≠ "" then (.deleted pat, [.deleteByTitle pat]) else (.needPattern, [])
    | .create =>
        if meetingParseOk then (.created, [.createEvent]) else (.couldNotParse, [])

/-! ## Deferred-work store (`pending_emails.json` / `pending_reminders.json`)

The JSON documents are dicts keyed by item id; Python dicts preserve
insertion order and `json.load`/`json.dump` preserve document order, so a
store is an association list in insertion order.  Scheduled times are
embedded as instants (`Nat`, seconds): ISO-8601 strings of a fixed
timezone compare identically to their instants. -/

inductive WorkStatus where
  | pending | sent | failed | cancelled
deriving DecidableEq, Repr

/-- A deferred work item record (`scheduled_time` and `status`; the
payload fields — recipient/subject/body or reminder text — do not affect
the scheduling logic and are carried by the surrounding code). -/
structure WorkRec where
  sched : Nat
  status : WorkStatus
deriving DecidableEq, Repr

/-- Python decimal `str(n)` for a natural number, built from the usual
divide-by-ten digit recursion (any `fuel ≥ n` gives the full digits). -/
def pyStrAux : Nat → Nat → List Char
  | 0, _ => []
  | _ + 1, 0 => []
  | f + 1, n + 1 => pyStrAux f ((n + 1) / 10) ++ [Nat.digitChar ((n + 1) % 10)]

/-- Python `str(n)` for a non-negative integer. -/
def pyNatRepr (n : Nat) : String := if n = 0 then "0" else ⟨pyStrAux (n + 1) n⟩

/-- Decimal value of a digit string (inverse of `pyNatRepr`). -/
def undigit (l : List Char) : Nat := l.foldl (fun a c => 10 * a + (c.toNat - 48)) 0

/-- Id generation of `EmailService.save_pending_email` (`email_service.py`
line 298): `f"email_{int(datetime.now().timestamp())}"`.  The creation
instant is carried in milliseconds; `int(...)` truncates to whole
seconds. -/
def mkEmailId (tsMs : Nat) : String := "email_" ++ pyNatRepr (tsMs / 1000)

/-- Id generation of `ReminderService.save_pending_reminder`
(`reminder_service.py` line 210): `f"reminder_{int(datetime.now().timestamp())}"`. -/
def mkReminderId (tsMs : Nat) : String := "reminder_" ++ pyNatRepr (tsMs / 1000)

/-- Python dict item assignment `store[k] = v` (replace if the key is
present, else append at the end, preserving insertion order). -/
def dictSet {α : Type} (store : List (String × α)) (k : String) (v : α) : List (String × α) :=
  if store.any (fun p => p.1 = k) then
    store.map fun p => if p.1 = k then (k, v) else p
  else
    store ++ [(k, v)]

/-- `EmailService.save_pending_email` (`email_service.py` lines 286-323):
generate the timestamp-seeded id and write the record into the pending
dict (`pending_emails[email_id] = email_record`), returning the id. -/
def savePendingEmail (tsMs : Nat) (rec : WorkRec) (store : List (String × WorkRec)) :
    String × List (String × WorkRec) :=
  let emailId := mkEmailId tsMs
  (emailId, dictSet store emailId rec)

/-- `EmailService.check_and_send_scheduled_emails` (`email_service.py`
lines 349-398): iterate the pending dict in insertion order; for every
item still `pending` whose `scheduled_time <= current_time`, send via
SMTP (`deliver`), then set the status to `sent` on success and `failed`
otherwise.  Returns the updated store and the `sent_emails` log
(id, success) in processing order. -/
def emailTick (deliver : String → Bool) (now : Nat) :
    List (String × WorkRec) → List (String × WorkRec) × List (String × Bool)
  | [] => ([], [])
  | (i, r) :: rest =>
      let tail := emailTick deliver now rest
      if r.status = .pending ∧ r.sched ≤ now then
        let ok := deliver i
        ((i, { r with status := if ok then .sent else .failed }) :: tail.1, (i, ok) :: tail.2)
      else
        ((i, r) :: tail.1, tail.2)

/-- `ReminderService.check_and_send_scheduled_reminders`
(`reminder_service.py` lines 259-294): iterate the pending dict; every
due pending reminder is marked `sent` unconditionally and collected into
`reminders_to_send`; no delivery happens here. -/
def reminderTick (now : Nat) :
    List (String × WorkRec) → List (String × WorkRec) × List String
  | [] => ([], [])
  | (i, r) :: rest =>
      let tail := reminderTick now rest
      if r.status = .pending ∧ r.sched ≤ now then
        ((i, { r with status := .sent }) :: tail.1, i :: tail.2)
      else
        ((i, r) :: tail.1, tail.2)

/-- The delivery loop of `send_scheduled_reminders`
(`handlers/scheduled_tasks.py` lines 184-198): each collected reminder is
sent over Telegram; a failure is only logged and never written back to
the store.  Returns the delivery outcomes. -/
def reminderDeliveries (deliver : String → Bool) (toSend : List String) : List (String × Bool) :=
  toSend.map fun i => (i, deliver i)

/-- Whether a record is pending and due at `now`. -/
def duePending (now : Nat) (r : WorkRec) : Bool :=
  decide (r.status = .pending) && decide (r.sched ≤ now)

/-- The ids processed by one email tick, in processing order. -/
def emailProcessOrder (now : Nat) (store : List (String × WorkRec)) : List String :=
  (store.filter fun p => duePending now p.2).map Prod.fst

/-- Stable insertion of `list.sort(key=lambda x: x['scheduled_time'])`. -/
def insertBySched (x : String × WorkRec) :
    List (String × WorkRec) → List (String × WorkRec)
  | [] => [x]
  | y :: ys => if y.2.sched ≤ x.2.sched then y :: insertBySched x ys else x :: y :: ys

/-- Sorting by `scheduled_time` ascending. -/
def sortBySched (l : List (String × WorkRec)) : List (String × WorkRec) :=
  l.foldr insertBySched []

/-- `EmailService.get_pending_emails` (`email_service.py` lines 335-347)
and the identical `ReminderService.get_pending_reminders`: filter the
still-pending items and sort them by scheduled time ascending. -/
def getPendingEmails (store : List (String × WorkRec)) : List (String × WorkRec) :=
  sortBySched (store.filter fun p => decide (p.2.status = .pending))

/-! ## Persistence loading (`load_*` / corrupt files) -/

/-- Abstract state of a JSON backing file. -/
inductive FileState (α : Type) where
  | missing
  | corrupt
  | valid (content : α)

/-- `EmailService.load_pending_emails` (`email_service.py` lines 325-333):
a missing file short-circuits to `{}`; a `json.JSONDecodeError` (or
`FileNotFoundError`) while reading is caught and `{}` is returned. -/
def loadPendingEmails (fs : FileState (List (String × WorkRec))) : List (String × WorkRec) :=
  match fs with
  | .missing => []
  | .corrupt => []
  | .valid s => s

/-- `ReminderService.load_pending_reminders` (`reminder_service.py` lines
235-243), identical in structure to the email loader. -/
def loadPendingReminders (fs : FileState (List (String × WorkRec))) : List (String × WorkRec) :=
  match fs with
  | .missing => []
  | .corrupt => []
  | .valid s => s

/-- `CalendarHandler.load_sent_reminders` (`calendar_handler.py` lines
649-655): a missing file yields the empty set, but the `json.load` call
is NOT wrapped in any try/except, so malformed content raises
`json.JSONDecodeError` out of the loader. -/
def loadSentReminders (fs : FileState (List String)) : Except String (List String) :=
  match fs with
  | .missing => .ok []
  | .corrupt => .error "json.decoder.JSONDecodeError"
  | .valid s => .ok s

/-! ## Calendar reminder at-most-once machinery (`calendar_handler.py`,
`handlers/scheduled_tasks.py`) -/

/-- A calendar event as returned by the calendar API: id and start
instant (epoch seconds; timed events only — all-day events get the
midnight instant in the source and behave identically here). -/
structure CalEvent where
  id : String
  start : Nat
deriving DecidableEq, Repr

/-- `f"{event_id}_before_{minutes_before}"` (`calendar_handler.py` 718). -/
def mkBeforeId (e : String) (mb : Nat) : String := e ++ "_before_" ++ pyNatRepr mb

/-- `f"{event_id}_at_time"` (`calendar_handler.py` 719). -/
def mkAtTimeId (e : String) : String := e ++ "_at_time"

/-- `CalendarHandler.get_events_needing_reminders` (`calendar_handler.py`
lines 662-756): for every upcoming event (start strictly in the future),
emit the "before" reminder instance when `minutes_before <=
minutes_until_event <= minutes_before + 5` and its id is not yet in the
sent set, else the "at time" instance when `0 <= minutes_until_event <=
5` and its id is not yet in the sent set.  `minutes_until_event` is
`(start - now)/60` as a real number, so the window bounds are expressed
in seconds.  Returns the reminder-instance ids in event order. -/
def neededReminders (now mb : Nat) (atTime : Bool) (sent : List String) :
    List CalEvent → List String
  | [] => []
  | ev :: rest =>
      let tail := neededReminders now mb atTime sent rest
      if ev.start ≤ now then tail
      else
        let delta := ev.start - now
        let beforeId := mkBeforeId ev.id mb
        let atId := mkAtTimeId ev.id
        if mb * 60 ≤ delta ∧ delta ≤ (mb + 5) * 60 ∧ beforeId ∉ sent then beforeId :: tail
        else if atTime ∧ delta ≤ 5 * 60 ∧ atId ∉ sent then atId :: tail
        else tail

/-- Python `set.add` (`CalendarHandler.mark_reminder_sent`,
`calendar_handler.py` lines 813-821). -/
def pySetAdd (s : List String) (x : String) : List String :=
  if x ∈ s then s else s ++ [x]

/-- The send loop of `send_calendar_reminders`
(`handlers/scheduled_tasks.py` lines 94-112): every returned instance is
format+sent (one invocation each, appended to the log); on send success
the id is marked sent, while an exception from the send skips the
`mark_reminder_sent` call.  `ok` gives the Telegram send outcome. -/
def calSendLoop (ok : String → Bool) (sent : List String) :
    List String → List String × List String
  | [] => (sent, [])
  | rid :: rest =>
      let sent' := if ok rid then pySetAdd sent rid else sent
      let tail := calSendLoop ok sent' rest
      (tail.1, rid :: tail.2)

/-- `CalendarHandler.cleanup_old_reminders` (`calendar_handler.py` lines
823-834): clears the whole sent set once it exceeds 1000 entries. -/
def calCleanup (s : List String) : List String := if 1000 < s.length then [] else s

/-- One scheduler tick of calendar reminders: current time, listed
events, and the per-send Telegram outcome. -/
structure CalTick where
  now : Nat
  events : List CalEvent
  ok : String → Bool

/-- One run of `send_calendar_reminders` (`handlers/scheduled_tasks.py`
lines 76-119): compute the needed instances, run the send loop, and run
the cleanup when at least one reminder was listed.  Returns the new sent
set and the format+send invocation log. -/
def calTick (mb : Nat) (atTime : Bool) (t : CalTick) (sent : List String) :
    List String × List String :=
  let instances := neededReminders t.now mb atTime sent t.events
  let afterLoop := calSendLoop t.ok sent instances
  let sentF := if instances ≠ [] then calCleanup afterLoop.1 else afterLoop.1
  (sentF, afterLoop.2)

/-- Repeated scheduler ticks, threading the persisted sent set and
concatenating the invocation logs. -/
def runCalTicks (mb : Nat) (atTime : Bool) : List CalTick → List String → List String × List String
  | [], sent => (sent, [])
  | t :: ts, sent =>
      let first := calTick mb atTime t sent
      let rest := runCalTicks mb atTime ts first.1
      (rest.1, first.2 ++ rest.2)

/-- The safety-valve clear never fires along the run: in every tick the
sent set stays within the 1000-entry cleanup threshold. -/
def noClearRun (mb : Nat) (atTime : Bool) : List CalTick → List String → Bool
  | [], _ => true
  | t :: ts, sent =>
      let instances := neededReminders t.now mb atTime sent t.events
      let afterLoop := calSendLoop t.ok sent instances
      if instances ≠ [] ∧ 1000 < afterLoop.1.length then false
      else noClearRun mb atTime ts (calTick mb atTime t sent).1

/-! # Theorems -/

/-! ## C1 — same-minute race-condition correction -/

/-- C1: the same-minute race-condition bump does NOT hold for every
possible resolved timestamp.  For a resolved timestamp in the same whole
minute as the reference time with minute component 59, the shared
dispatch logic of `execute_email_action` / `execute_reminder_action`
evaluates `send_time.replace(minute=60, second=0, microsecond=0)`, which
raises `ValueError` instead of bumping the timestamp into the next
minute; for a minute component below 59 the bump behaves as claimed
(10:30:00 is bumped to 10:31:00 with seconds zeroed). -/
theorem C1_race_bump_valueerror_at_minute_59 :
    raceAdjust sendAt59 nowAt59 = .error "minute must be in 0..59" ∧
    raceAdjust sendAt30 nowAt30 = .ok ⟨2025, 6, 1, 10, 31, 0, 0⟩ := by
  constructor <;> rfl

/-! ## C2 — tick status transitions -/

/-- In an email tick, every due pending item is re-stored with status
`sent` or `failed` according to the SMTP outcome. -/
theorem emailTick_status_mem (deliver : String → Bool) (now : Nat)
    (store : List (String × WorkRec)) (i : String) (r : WorkRec)
    (hmem : (i, r) ∈ store) (hp : r.status = .pending) (hd : r.sched ≤ now) :
    (i, { r with status := if deliver i then .sent else .failed }) ∈
      (emailTick deliver now store).1 := by
  induction store with
  | nil => cases hmem
  | cons p tl ih =>
    rcases List.mem_cons.mp hmem with h | h
    · subst h
      simp only [emailTick]
      rw [if_pos ⟨hp, hd⟩]
      exact List.mem_cons_self _ _
    · simp only [emailTick]
      split
      · exact List.mem_cons_of_mem _ (ih h)
      · exact List.mem_cons_of_mem _ (ih h)

/-- In a reminder tick, every due pending item is re-stored with status
`sent`, independently of any delivery outcome. -/
theorem reminderTick_status_mem (now : Nat)
    (store : List (String × WorkRec)) (i : String) (r : WorkRec)
    (hmem : (i, r) ∈ store) (hp : r.status = .pending) (hd : r.sched ≤ now) :
    (i, { r with status := .sent }) ∈ (reminderTick now store).1 := by
  induction store with
  | nil => cases hmem
  | cons p tl ih =>
    rcases List.mem_cons.mp hmem with h | h
    · subst h
      simp only [reminderTick]
      rw [if_pos ⟨hp, hd⟩]
      exact List.mem_cons_self _ _
    · simp only [reminderTick]
      split
      · exact List.mem_cons_of_mem _ (ih h)
      · exact List.mem_cons_of_mem _ (ih h)

/-- C2 counterexample: a pending reminder due at tick time whose Telegram
delivery fails is nevertheless stored with status `sent` by
`check_and_send_scheduled_reminders` (which marks before delivering),
contradicting "Failed exactly when delivery did not succeed". -/
theorem C2_counterexample_reminder_sent_despite_failed_delivery :
    (reminderTick 10 [("r1", ⟨5, .pending⟩)]).1 = [("r1", ⟨5, .sent⟩)] ∧
    reminderDeliveries (fun _ => false) (reminderTick 10 [("r1", ⟨5, .pending⟩)]).2 =
      [("r1", false)] := by
  constructor <;> rfl

/-- C2 (amended): on each tick, every due pending EMAIL is marked `sent`
exactly when SMTP delivery succeeded and `failed` otherwise, while every
due pending REMINDER is marked `sent` unconditionally, regardless of the
delivery outcome. -/
theorem C2_amended_tick_status_transitions (deliver : String → Bool) (now : Nat)
    (store : List (String × WorkRec)) (i : String) (r : WorkRec)
    (hmem : (i, r) ∈ store) (hp : r.status = .pending) (hd : r.sched ≤ now) :
    (i, { r with status := if deliver i then .sent else .failed }) ∈
      (emailTick deliver now store).1 ∧
    (i, { r with status := .sent }) ∈ (reminderTick now store).1 :=
  ⟨emailTick_status_mem deliver now store i r hmem hp hd,
   reminderTick_status_mem now store i r hmem hp hd⟩

/-- Witness for the amended C2 theorem at a concrete store. -/
theorem C2_amended_witness :
    ("e1", (⟨5, .pending⟩ : WorkRec)) ∈ [("e1", (⟨5, .pending⟩ : WorkRec))] ∧
    (⟨5, .pending⟩ : WorkRec).status = .pending ∧
    (⟨5, .pending⟩ : WorkRec).sched ≤ 10 ∧
    (("e1", ({ (⟨5, .pending⟩ : WorkRec) with
        status := if (fun _ => true : String → Bool) "e1" then .sent else .failed }) ) ∈
      (emailTick (fun _ => true) 10 [("e1", ⟨5, .pending⟩)]).1 ∧
     ("e1", ({ (⟨5, .pending⟩ : WorkRec) with status := .sent })) ∈
      (reminderTick 10 [("e1", ⟨5, .pending⟩)]).1) :=
  ⟨by decide, by decide, by decide,
   C2_amended_tick_status_transitions (fun _ => true) 10 [("e1", ⟨5, .pending⟩)] "e1"
     ⟨5, .pending⟩ (by decide) (by decide) (by decide)⟩

/-! ## C4 — ClearAll confirmation safety -/

/-- C4: classifying "clear my schedule" yields ClearAll unconfirmed,
classifying "clear my schedule, yes I'm sure" yields ClearAll confirmed,
and executing an unconfirmed ClearAll returns the confirmation-request
result with zero calendar-collaborator calls. -/
theorem C4_clear_all_confirmation_safety :
    classify true "clear my schedule" = .calendarIntent (.clearAll false) ∧
    classify true "clear my schedule, yes I\x27m sure" = .calendarIntent (.clearAll true) ∧
    executeCalendarAction true true (.clearAll false) = (.confirmRequest, []) := by
  refine ⟨by rfl, by rfl, by rfl⟩

/-! ## C7 — time-parse failure for scheduled email -/

/-- C7 counterexample: for the unrecognized send-time string "soon" the
parser returns `None`, and `execute_email_action` then proceeds to send
the email immediately (successful immediate-send outcome), instead of
returning a failure result to the user. -/
theorem C7_counterexample_parse_failure_sends_immediately :
    parseSendTime nowAt30 "soon" = none ∧
    executeEmailSendPath "soon" nowAt30 true = .ok (.sentNow true) := by
  constructor <;> rfl

/-- C7 (amended): for every SendEmail dispatch whose extracted send-time
string is non-empty, not "now", and unrecognized by the time parser, the
dispatch logs the failure, defaults to "now" semantics and sends the
email immediately — it does not surface a failure result. -/
theorem C7_amended_unparseable_time_defaults_to_now (s : String) (now : PyDateTime)
    (ok : Bool) (h1 : s ≠ "") (h2 : pyLower s ≠ "now")
    (h3 : parseSendTime now s = none) :
    executeEmailSendPath s now ok = .ok (.sentNow ok) := by
  simp only [executeEmailSendPath]
  rw [if_pos ⟨h1, h2⟩, h3]

/-- Witness for the amended C7 theorem at the concrete string "soon". -/
theorem C7_amended_witness :
    "soon" ≠ "" ∧ pyLower "soon" ≠ "now" ∧ parseSendTime nowAt59 "soon" = none ∧
    executeEmailSendPath "soon" nowAt59 false = .ok (.sentNow false) :=
  ⟨by decide, by decide, by rfl,
   C7_amended_unparseable_time_defaults_to_now "soon" nowAt59 false (by decide)
     (by decide) (by rfl)⟩

/-! ## C8 — corrupt persistence degradation -/

/-- C8 counterexample: a malformed `sent_reminders.json` makes
`CalendarHandler.load_sent_reminders` raise `json.JSONDecodeError` out of
the loading operation instead of yielding the empty collection. -/
theorem C8_counterexample_sent_reminders_corrupt_raises :
    loadSentReminders .corrupt = .error "json.decoder.JSONDecodeError" ∧
    loadSentReminders .corrupt ≠ .ok [] := by
  constructor
  · rfl
  · intro h
    simp [loadSentReminders] at h

/-- C8 (amended): the pending-email and pending-reminder loaders yield
the empty collection on a missing or malformed file and never raise,
but the sent-reminder-marks loader degrades only on a missing file and
raises on malformed content. -/
theorem C8_amended_corrupt_persistence_degradation :
    loadPendingEmails .corrupt = [] ∧ loadPendingEmails .missing = [] ∧
    (∀ s, loadPendingEmails (.valid s) = s) ∧
    loadPendingReminders .corrupt = [] ∧ loadPendingReminders .missing = [] ∧
    (∀ s, loadPendingReminders (.valid s) = s) ∧
    loadSentReminders .missing = .ok [] ∧
    loadSentReminders .corrupt = .error "json.decoder.JSONDecodeError" :=
  ⟨rfl, rfl, fun _ => rfl, rfl, rfl, fun _ => rfl, rfl, rfl⟩

/-! ## C6 — per-tick processing order -/

/-- The ids logged by an email tick are exactly the due pending ids in
store (insertion) order. -/
theorem emailTick_log_fst (deliver : String → Bool) (now : Nat) :
    ∀ store : List (String × WorkRec),
      (emailTick deliver now store).2.map Prod.fst = emailProcessOrder now store := by
  intro store
  induction store with
  | nil => rfl
  | cons p tl ih =>
    obtain ⟨i, r⟩ := p
    simp only [emailTick]
    split
    case isTrue hc =>
      have hb : duePending now r = true := by
        simp [duePending, hc.1, hc.2]
      simp only [emailProcessOrder, List.filter_cons, hb, if_true, List.map_cons]
      exact congrArg (i :: ·) ih
    case isFalse hc =>
      have hb : ¬ (duePending now r = true) := by
        simp only [duePending, Bool.and_eq_true, decide_eq_true_eq]
        exact hc
      simp only [emailProcessOrder, List.filter_cons, if_neg hb]
      exact ih

/-- Members of an ordered insertion. -/
theorem insertBySched_mem (x z : String × WorkRec) :
    ∀ l, z ∈ insertBySched x l → z = x ∨ z ∈ l := by
  intro l
  induction l with
  | nil => simp [insertBySched]
  | cons y ys ih =>
    simp only [insertBySched]
    split
    · intro h
      rcases List.mem_cons.mp h with h | h
      · exact Or.inr (h ▸ List.mem_cons_self _ _)
      · rcases ih h with h | h
        · exact Or.inl h
        · exact Or.inr (List.mem_cons_of_mem _ h)
    · intro h
      rcases List.mem_cons.mp h with h | h
      · exact Or.inl h
      · exact Or.inr h

/-- Ordered insertion preserves sortedness by scheduled time. -/
theorem insertBySched_pairwise (x : String × WorkRec) :
    ∀ l, List.Pairwise (fun a b : String × WorkRec => a.2.sched ≤ b.2.sched) l →
      List.Pairwise (fun a b : String × WorkRec => a.2.sched ≤ b.2.sched)
        (insertBySched x l) := by
  intro l
  induction l with
  | nil => intro _; simp [insertBySched]
  | cons y ys ih =>
    intro h
    rcases List.pairwise_cons.mp h with ⟨hy, hys⟩
    simp only [insertBySched]
    split
    case isTrue hle =>
      refine List.pairwise_cons.mpr ⟨?_, ih hys⟩
      intro z hz
      rcases insertBySched_mem x z ys hz with rfl | hz
      · exact hle
      · exact hy z hz
    case isFalse hgt =>
      refine List.pairwise_cons.mpr ⟨?_, h⟩
      intro z hz
      rcases List.mem_cons.mp hz with rfl | hz
      · exact Nat.le_of_not_le hgt
      · exact Nat.le_trans (Nat.le_of_not_le hgt) (hy z hz)

/-- The pending view is sorted by scheduled time ascending. -/
theorem sortBySched_pairwise :
    ∀ l, List.Pairwise (fun a b : String × WorkRec => a.2.sched ≤ b.2.sched)
      (sortBySched l) := by
  intro l
  induction l with
  | nil => simp [sortBySched]
  | cons y ys ih => exact insertBySched_pairwise y (sortBySched ys) ih

/-- C6 counterexample: with the later-due item "e1" (scheduled 10)
inserted before the earlier-due "e2" (scheduled 5) and both due at tick
time 10, the tick processes "e1" first — store insertion order, not
ascending scheduled_time order. -/
theorem C6_counterexample_processing_order_not_sorted :
    emailProcessOrder 10 [("e1", ⟨10, .pending⟩), ("e2", ⟨5, .pending⟩)] = ["e1", "e2"] ∧
    ([("e1", (⟨10, .pending⟩ : WorkRec)), ("e2", ⟨5, .pending⟩)].lookup "e1").map
      WorkRec.sched = some 10 ∧
    ([("e1", (⟨10, .pending⟩ : WorkRec)), ("e2", ⟨5, .pending⟩)].lookup "e2").map
      WorkRec.sched = some 5 := by
  refine ⟨by decide, by decide, by decide⟩

/-- C6 (amended): within a tick the due items are processed in store
insertion order (the order of the pending dict), not sorted by scheduled
time; the processing order is a sublist of the store order, and only the
separate pending-list view `get_pending_emails` is sorted by
scheduled_time ascending. -/
theorem C6_amended_tick_processing_order (deliver : String → Bool) (now : Nat)
    (store : List (String × WorkRec)) :
    (emailTick deliver now store).2.map Prod.fst = emailProcessOrder now store ∧
    (emailProcessOrder now store).Sublist (store.map Prod.fst) ∧
    List.Pairwise (fun a b : String × WorkRec => a.2.sched ≤ b.2.sched)
      (getPendingEmails store) :=
  ⟨emailTick_log_fst deliver now store,
   (List.filter_sublist store).map Prod.fst,
   sortBySched_pairwise _⟩

/-! ## C9 — id generation and same-second collisions -/

/-- Digit characters decode to their value. -/
theorem digitChar_val (d : Nat) (h : d < 10) : (Nat.digitChar d).toNat - 48 = d := by
  interval_cases d <;> rfl

/-- `undigit` over an appended digit. -/
theorem undigit_append (l : List Char) (c : Char) :
    undigit (l ++ [c]) = 10 * undigit l + (c.toNat - 48) := by
  simp [undigit, List.foldl_append]

/-- `pyStrAux` produces the decimal digits of its argument. -/
theorem undigit_pyStrAux : ∀ f n, n ≤ f → undigit (pyStrAux f n) = n := by
  intro f
  induction f with
  | zero =>
    intro n hn
    interval_cases n
    rfl
  | succ f ih =>
    intro n hn
    match n with
    | 0 => rfl
    | n + 1 =>
      rw [pyStrAux, undigit_append, ih ((n + 1) / 10) (by omega),
        digitChar_val _ (Nat.mod_lt _ (by omega))]
      omega

/-- `pyNatRepr` round-trips through `undigit`. -/
theorem pyNatRepr_val (n : Nat) : undigit (pyNatRepr n).toList = n := by
  unfold pyNatRepr
  split
  case isTrue h => rw [h]; rfl
  case isFalse h => exact undigit_pyStrAux (n + 1) n (Nat.le_succ n)

/-- Python `str(n)` is injective. -/
theorem pyNatRepr_inj {a b : Nat} (h : pyNatRepr a = pyNatRepr b) : a = b := by
  have hv : undigit (pyNatRepr a).toList = undigit (pyNatRepr b).toList := by rw [h]
  rwa [pyNatRepr_val, pyNatRepr_val] at hv

/-- Left cancellation for string append. -/
theorem string_append_cancel {p x y : String} (h : p ++ x = p ++ y) : x = y := by
  have hd : p.data ++ x.data = p.data ++ y.data := congrArg String.data h
  have hxy := List.append_cancel_left hd
  cases x
  cases y
  exact congrArg String.mk hxy

/-- Email ids agree exactly on the whole-second part of the creation
instant. -/
theorem mkEmailId_inj {t1 t2 : Nat} (h : mkEmailId t1 = mkEmailId t2) :
    t1 / 1000 = t2 / 1000 :=
  pyNatRepr_inj (string_append_cancel h)

/-- Reminder ids agree exactly on the whole-second part of the creation
instant. -/
theorem mkReminderId_inj {t1 t2 : Nat} (h : mkReminderId t1 = mkReminderId t2) :
    t1 / 1000 = t2 / 1000 :=
  pyNatRepr_inj (string_append_cancel h)

/-- C9 counterexample: two email inserts whose creation instants fall in
the same whole second (1000.5s and 1000.9s) generate the SAME id
`email_1000`, and the second insert overwrites the record of the first:
the store ends with a single entry holding the second record. -/
theorem C9_counterexample_same_second_id_collision :
    mkEmailId 1000500 = mkEmailId 1000900 ∧
    (savePendingEmail 1000900 ⟨7, .pending⟩
      (savePendingEmail 1000500 ⟨5, .pending⟩ []).2).2 =
      [("email_1000", ⟨7, .pending⟩)] := by
  constructor <;> rfl

/-- C9 (amended): ids are derived from the whole-second part of the
creation timestamp: two inserts in DISTINCT whole seconds get distinct
ids (for emails and reminders alike) and both records are kept, while
inserts within the same whole second collide and the later insert
overwrites the earlier record. -/
theorem C9_amended_ids_distinct_across_seconds (t1 t2 : Nat) (r1 r2 : WorkRec)
    (h : t1 / 1000 ≠ t2 / 1000) :
    mkEmailId t1 ≠ mkEmailId t2 ∧ mkReminderId t1 ≠ mkReminderId t2 ∧
    (savePendingEmail t2 r2 (savePendingEmail t1 r1 []).2).2 =
      [(mkEmailId t1, r1), (mkEmailId t2, r2)] := by
  have he : mkEmailId t1 ≠ mkEmailId t2 := fun hh => h (mkEmailId_inj hh)
  have hr : mkReminderId t1 ≠ mkReminderId t2 := fun hh => h (mkReminderId_inj hh)
  refine ⟨he, hr, ?_⟩
  simp [savePendingEmail, dictSet, he]

/-- Witness for the amended C9 theorem at instants one second apart. -/
theorem C9_amended_witness :
    (1000500 : Nat) / 1000 ≠ (2000500 : Nat) / 1000 ∧
    (mkEmailId 1000500 ≠ mkEmailId 2000500 ∧
     mkReminderId 1000500 ≠ mkReminderId 2000500 ∧
     (savePendingEmail 2000500 ⟨7, .pending⟩
        (savePendingEmail 1000500 ⟨5, .pending⟩ []).2).2 =
       [(mkEmailId 1000500, ⟨5, .pending⟩), (mkEmailId 2000500, ⟨7, .pending⟩)]) :=
  ⟨by decide,
   C9_amended_ids_distinct_across_seconds 1000500 2000500 ⟨5, .pending⟩ ⟨7, .pending⟩
     (by decide)⟩

/-! ## C3 — email/reminder classification exclusivity -/

/-- The local-part scanner only succeeds when an `@` lies ahead. -/
theorem localScan_at : ∀ l, localScan l = true → '@' ∈ l := by
  intro l
  induction l with
  | nil => simp [localScan]
  | cons c rest ih =>
    simp only [localScan, Bool.or_eq_true, Bool.and_eq_true, decide_eq_true_eq]
    rintro (⟨h1, _⟩ | ⟨_, h2⟩)
    · exact h1 ▸ List.mem_cons_self _ _
    · exact List.mem_cons_of_mem _ (ih h2)

/-- A regex match anywhere implies an `@` in the text. -/
theorem emailSearch_at : ∀ (prev : Option Char) l, emailSearch prev l = true → '@' ∈ l := by
  intro prev l
  induction l generalizing prev with
  | nil => simp [emailSearch]
  | cons c rest ih =>
    simp only [emailSearch, Bool.or_eq_true]
    rintro (h | h)
    · simp only [emailAtPos, Bool.and_eq_true] at h
      exact List.mem_cons_of_mem _ (localScan_at rest h.2)
    · exact List.mem_cons_of_mem _ (ih (some c) h)

/-- An email-address token in the message implies the `@` membership test
of `detect_reminder_action` fires. -/
theorem hasEmailAddress_hasChar_at (msg : String) (h : hasEmailAddress msg = true) :
    hasChar '@' msg = true := by
  have hm : '@' ∈ msg.toList := emailSearch_at none msg.toList h
  simpa [hasChar] using hm

/-- C3: classifying "send email to a@b.com reminder tomorrow at 9am"
yields SendEmail and never SetReminder (with or without an authenticated
calendar); in general, every message containing an email-address token
and an email-action keyword is excluded from reminder classification
(the `@` check) and accepted by email classification. -/
theorem C3_classification_exclusivity :
    (∀ auth : Bool,
      classify auth "send email to a@b.com reminder tomorrow at 9am" = .sendEmail) ∧
    (∀ msg : String, hasEmailAddress msg = true →
      anyPatIn emailPatterns (pyLower msg) = true →
      detectReminderAction msg = none ∧ detectEmailAction msg = some msg) := by
  constructor
  · intro auth
    cases auth
    · rfl
    · rfl
  · intro msg hA hP
    have hAt : hasChar '@' msg = true := hasEmailAddress_hasChar_at msg hA
    constructor
    · simp [detectReminderAction, hAt]
    · simp [detectEmailAction, hA, hP]

/-- Witness for the universal part of C3 at the concrete input of the
claim. -/
theorem C3_witness :
    hasEmailAddress "send email to a@b.com reminder tomorrow at 9am" = true ∧
    anyPatIn emailPatterns (pyLower "send email to a@b.com reminder tomorrow at 9am") = true ∧
    detectReminderAction "send email to a@b.com reminder tomorrow at 9am" = none ∧
    detectEmailAction "send email to a@b.com reminder tomorrow at 9am" =
      some "send email to a@b.com reminder tomorrow at 9am" :=
  ⟨by decide, by decide,
   (C3_classification_exclusivity.2 "send email to a@b.com reminder tomorrow at 9am"
      (by decide) (by decide)).1,
   (C3_classification_exclusivity.2 "send email to a@b.com reminder tomorrow at 9am"
      (by decide) (by decide)).2⟩

/-! ## C10 — substring-based personal-context check -/

/-- A relative-offset match fixes the head of the matching suffix. -/
theorem relOffsetHere_shape : ∀ l, relOffsetHere l = true →
    ∃ rest, l = 'i' :: 'n' :: ' ' :: rest := by
  intro l h
  unfold relOffsetHere at h
  split at h
  · next rest => exact ⟨rest, rfl⟩
  · exact absurd h (by simp)

/-- A relative-offset pattern match anywhere puts the letter `i` in the
text. -/
theorem searchHere_relOffset_has_i : ∀ l, searchHere relOffsetHere l = true →
    strContains ['i'] l = true := by
  intro l
  induction l with
  | nil => intro h; exact absurd h (by simp [searchHere, relOffsetHere])
  | cons c rest ih =>
    simp only [searchHere, Bool.or_eq_true]
    rintro (h | h)
    · obtain ⟨r, hr⟩ := relOffsetHere_shape _ h
      cases hr
      simp [strContains, List.isPrefixOf]
    · simp only [strContains, Bool.or_eq_true]
      exact Or.inr (ih h)

/-- A relative-offset match is one of the time-pattern disjuncts. -/
theorem relOffset_in_timePattern {l : List Char}
    (h : searchHere relOffsetHere l = true) : hasTimePattern l = true := by
  simp [hasTimePattern, h]

/-- With the `@` and exclusion checks passed, a time pattern plus the
substring `me` or `i` anywhere classifies the message as a reminder. -/
theorem detectReminder_time_context (msg : String)
    (h1 : hasChar '@' msg = false)
    (h2 : emailExclusionPatterns.any
      (fun p => strContains p.toList ((pyLower msg).toList)) = false)
    (h3 : calendarExclusionPatterns.any
      (fun p => strContains p.toList ((pyLower msg).toList)) = false)
    (h4 : hasTimePattern ((pyLower msg).toList) = true ∨
      hasTimeStartPattern ((pyLower msg).toList) = true)
    (h5 : strContains "me".toList ((pyLower msg).toList) = true ∨
      strContains "i".toList ((pyLower msg).toList) = true) :
    detectReminderAction msg = some msg := by
  have hor1 : (hasTimePattern ((pyLower msg).toList) ||
      hasTimeStartPattern ((pyLower msg).toList)) = true := by
    rcases h4 with h | h
    · rw [h, Bool.true_or]
    · rw [h, Bool.or_true]
  have hor2 : (strContains "me".toList ((pyLower msg).toList) ||
      strContains "i".toList ((pyLower msg).toList)) = true := by
    rcases h5 with h | h
    · rw [h, Bool.true_or]
    · rw [h, Bool.or_true]
  simp only [detectReminderAction, h1, h2, h3, Bool.false_eq_true, if_false]
  cases hRem : reminderPatterns.any fun p => strContains p.toList ((pyLower msg).toList)
  · rw [hor1, hor2]
    simp
  · simp

/-- C10: under the `@`-free and exclusion-free hypotheses, reminder
detection fires for any time-pattern message containing the substring
`me` or the letter `i` anywhere; and since every relative-offset match
(`in N minutes/hours`) itself contains the letter `i`, every such
message is classified as a reminder regardless of pronoun presence. -/
theorem C10_substring_personal_context :
    (∀ msg : String,
      hasChar '@' msg = false →
      emailExclusionPatterns.any
        (fun p => strContains p.toList ((pyLower msg).toList)) = false →
      calendarExclusionPatterns.any
        (fun p => strContains p.toList ((pyLower msg).toList)) = false →
      (hasTimePattern ((pyLower msg).toList) = true ∨
        hasTimeStartPattern ((pyLower msg).toList) = true) →
      (strContains "me".toList ((pyLower msg).toList) = true ∨
        strContains "i".toList ((pyLower msg).toList) = true) →
      detectReminderAction msg = some msg) ∧
    (∀ msg : String,
      hasChar '@' msg = false →
      emailExclusionPatterns.any
        (fun p => strContains p.toList ((pyLower msg).toList)) = false →
      calendarExclusionPatterns.any
        (fun p => strContains p.toList ((pyLower msg).toList)) = false →
      searchHere relOffsetHere ((pyLower msg).toList) = true →
      detectReminderAction msg = some msg) := by
  constructor
  · intro msg h1 h2 h3 h4 h5
    exact detectReminder_time_context msg h1 h2 h3 h4 h5
  · intro msg h1 h2 h3 h
    exact detectReminder_time_context msg h1 h2 h3
      (Or.inl (relOffset_in_timePattern h))
      (Or.inr (searchHere_relOffset_has_i _ h))

/-- Witness for C10 at a message with a relative offset and no standalone
pronoun. -/
theorem C10_witness :
    hasChar '@' "water plants in 30 minutes" = false ∧
    emailExclusionPatterns.any
      (fun p => strContains p.toList ((pyLower "water plants in 30 minutes").toList)) = false ∧
    calendarExclusionPatterns.any
      (fun p => strContains p.toList ((pyLower "water plants in 30 minutes").toList)) = false ∧
    searchHere relOffsetHere ((pyLower "water plants in 30 minutes").toList) = true ∧
    detectReminderAction "water plants in 30 minutes" = some "water plants in 30 minutes" :=
  ⟨by decide, by decide, by decide, by decide,
   C10_substring_personal_context.2 "water plants in 30 minutes"
     (by decide) (by decide) (by decide) (by decide)⟩

/-! ## C5 — calendar-reminder at-most-once delivery -/

/-- `getLast?` looks only at a nonempty right factor. -/
theorem getLast?_append_right {l1 l2 : List Char} (h : l2 ≠ []) :
    (l1 ++ l2).getLast? = l2.getLast? := by
  rw [List.getLast?_append]
  cases hl : l2.getLast? with
  | none => exact absurd (List.getLast?_eq_none_iff.mp hl) h
  | some a => rfl

/-- The decimal representation ends in a digit character. -/
theorem pyNatRepr_last (n : Nat) :
    ∃ d, d < 10 ∧ (pyNatRepr n).data.getLast? = some (Nat.digitChar d) := by
  unfold pyNatRepr
  split
  case isTrue h => exact ⟨0, by omega, rfl⟩
  case isFalse h =>
    obtain ⟨m, rfl⟩ : ∃ m, n = m + 1 := ⟨n - 1, by omega⟩
    refine ⟨(m + 1) % 10, Nat.mod_lt _ (by omega), ?_⟩
    show (pyStrAux (m + 1 + 1) (m + 1)).getLast? = _
    rw [pyStrAux]
    exact List.getLast?_concat _

/-- Right cancellation for string append. -/
theorem string_append_cancel_right {x y s : String} (h : x ++ s = y ++ s) : x = y := by
  have hd : x.data ++ s.data = y.data ++ s.data := by
    have hc := congrArg String.data h
    rwa [String.data_append x s, String.data_append y s] at hc
  have hxy := List.append_cancel_right hd
  cases x
  cases y
  exact congrArg String.mk hxy

/-- A "before" reminder id never coincides with an "at time" reminder id
(the former ends in a digit, the latter in `e`). -/
theorem mkBeforeId_ne_mkAtTimeId (a b : String) (mb : Nat) :
    mkBeforeId a mb ≠ mkAtTimeId b := by
  intro h
  obtain ⟨d, hd, hlast⟩ := pyNatRepr_last mb
  have hne : (pyNatRepr mb).data ≠ [] := by
    intro hnil
    rw [hnil] at hlast
    exact Option.noConfusion hlast
  have h1 : (mkBeforeId a mb).data.getLast? = some (Nat.digitChar d) := by
    show ((a ++ "_before_") ++ pyNatRepr mb).data.getLast? = _
    rw [String.data_append (a ++ "_before_") (pyNatRepr mb), getLast?_append_right hne]
    exact hlast
  have h2 : (mkAtTimeId b).data.getLast? = some 'e' := by
    show (b ++ "_at_time").data.getLast? = _
    rw [String.data_append b "_at_time", getLast?_append_right (by decide)]
    decide
  rw [h, h2] at h1
  have : Nat.digitChar d = 'e' := Option.some.inj h1.symm
  interval_cases d <;> exact absurd this (by decide)

/-- "Before" reminder ids determine the event id. -/
theorem mkBeforeId_inj_event {a b : String} {mb : Nat}
    (h : mkBeforeId a mb = mkBeforeId b mb) : a = b := by
  unfold mkBeforeId at h
  rw [String.append_assoc a "_before_" (pyNatRepr mb),
    String.append_assoc b "_before_" (pyNatRepr mb)] at h
  exact string_append_cancel_right h

/-- "At time" reminder ids determine the event id. -/
theorem mkAtTimeId_inj_event {a b : String} (h : mkAtTimeId a = mkAtTimeId b) : a = b :=
  string_append_cancel_right h

/-- Every listed reminder instance comes from a listed event (as its
"before" or "at time" id) and is not yet in the sent set. -/
theorem neededReminders_gen (now mb : Nat) (atTime : Bool) (sent : List String) :
    ∀ evs rid, rid ∈ neededReminders now mb atTime sent evs →
      (∃ ev ∈ evs, rid = mkBeforeId ev.id mb ∨ rid = mkAtTimeId ev.id) ∧ rid ∉ sent := by
  intro evs
  induction evs with
  | nil => intro rid h; cases h
  | cons ev rest ih =>
    intro rid h
    simp only [neededReminders] at h
    split at h
    · obtain ⟨⟨ev', hev', hor⟩, hs⟩ := ih rid h
      exact ⟨⟨ev', List.mem_cons_of_mem _ hev', hor⟩, hs⟩
    · split at h
      case isTrue hc =>
        rcases List.mem_cons.mp h with rfl | h
        · exact ⟨⟨ev, List.mem_cons_self _ _, Or.inl rfl⟩, hc.2.2⟩
        · obtain ⟨⟨ev', hev', hor⟩, hs⟩ := ih rid h
          exact ⟨⟨ev', List.mem_cons_of_mem _ hev', hor⟩, hs⟩
      case isFalse =>
        split at h
        case isTrue hc =>
          rcases List.mem_cons.mp h with rfl | h
          · exact ⟨⟨ev, List.mem_cons_self _ _, Or.inr rfl⟩, hc.2.2⟩
          · obtain ⟨⟨ev', hev', hor⟩, hs⟩ := ih rid h
            exact ⟨⟨ev', List.mem_cons_of_mem _ hev', hor⟩, hs⟩
        case isFalse =>
          obtain ⟨⟨ev', hev', hor⟩, hs⟩ := ih rid h
          exact ⟨⟨ev', List.mem_cons_of_mem _ hev', hor⟩, hs⟩

/-- With distinct event ids, the listed reminder instances are distinct. -/
theorem neededReminders_nodup (now mb : Nat) (atTime : Bool) (sent : List String) :
    ∀ evs, ((evs.map CalEvent.id).Nodup) →
      (neededReminders now mb atTime sent evs).Nodup := by
  intro evs
  induction evs with
  | nil => intro _; exact List.nodup_nil
  | cons ev rest ih =>
    intro hnd
    rw [List.map_cons, List.nodup_cons] at hnd
    obtain ⟨hhead, htail⟩ := hnd
    simp only [neededReminders]
    split
    · exact ih htail
    · split
      case isTrue =>
        rw [List.nodup_cons]
        refine ⟨?_, ih htail⟩
        intro hmem
        obtain ⟨⟨ev', hev', hor⟩, _⟩ := neededReminders_gen now mb atTime sent rest _ hmem
        rcases hor with hh | hh
        · exact hhead (mkBeforeId_inj_event hh ▸ List.mem_map_of_mem CalEvent.id hev')
        · exact mkBeforeId_ne_mkAtTimeId ev.id ev'.id mb hh
      case isFalse =>
        split
        case isTrue =>
          rw [List.nodup_cons]
          refine ⟨?_, ih htail⟩
          intro hmem
          obtain ⟨⟨ev', hev', hor⟩, _⟩ := neededReminders_gen now mb atTime sent rest _ hmem
          rcases hor with hh | hh
          · exact mkBeforeId_ne_mkAtTimeId ev'.id ev.id mb hh.symm
          · exact hhead (mkAtTimeId_inj_event hh ▸ List.mem_map_of_mem CalEvent.id hev')
        case isFalse => exact ih htail

/-- The send loop attempts format+send once per listed instance, in
order. -/
theorem calSendLoop_log (ok : String → Bool) :
    ∀ l sent, (calSendLoop ok sent l).2 = l := by
  intro l
  induction l with
  | nil => intro _; rfl
  | cons rid rest ih =>
    intro sent
    simp only [calSendLoop]
    rw [ih]

/-- The sent set only grows during the send loop. -/
theorem calSendLoop_superset (ok : String → Bool) :
    ∀ l sent x, x ∈ sent → x ∈ (calSendLoop ok sent l).1 := by
  intro l
  induction l with
  | nil => intro sent x hx; exact hx
  | cons rid rest ih =>
    intro sent x hx
    simp only [calSendLoop]
    apply ih
    split
    · unfold pySetAdd
      split
      · exact hx
      · exact List.mem_append_left _ hx
    · exact hx

/-- With all sends succeeding, every attempted instance ends up marked. -/
theorem calSendLoop_marks (ok : String → Bool) (hok : ∀ x, ok x = true) :
    ∀ l sent x, x ∈ l → x ∈ (calSendLoop ok sent l).1 := by
  intro l
  induction l with
  | nil => intro sent x hx; cases hx
  | cons rid rest ih =>
    intro sent x hx
    rcases List.mem_cons.mp hx with rfl | hx
    · simp only [calSendLoop]
      apply calSendLoop_superset
      rw [hok, if_pos rfl]
      unfold pySetAdd
      split
      case isTrue hmem => exact hmem
      case isFalse => exact List.mem_append_right _ (List.mem_singleton.mpr rfl)
    · simp only [calSendLoop]
      exact ih _ x hx

/-- If the safety valve does not fire on the first tick, the tick's new
sent set is the loop's set, and the remaining run is clear-free. -/
theorem noClear_step (mb : Nat) (atTime : Bool) (t : CalTick) (ts : List CalTick)
    (sent : List String) (h : noClearRun mb atTime (t :: ts) sent = true) :
    (calTick mb atTime t sent).1 =
      (calSendLoop t.ok sent (neededReminders t.now mb atTime sent t.events)).1 ∧
    noClearRun mb atTime ts (calTick mb atTime t sent).1 = true := by
  simp only [noClearRun] at h
  split at h
  · exact absurd h (by simp)
  case isFalse hcond =>
    refine ⟨?_, h⟩
    simp only [calTick, calCleanup]
    split
    case isTrue hne =>
      split
      case isTrue hlen => exact absurd ⟨hne, hlen⟩ hcond
      case isFalse => rfl
    case isFalse => rfl

/-- Across any clear-free, all-sends-succeed run with per-tick distinct
event ids, each reminder id is attempted at most once, and never again
once it is in the sent set. -/
theorem runCalTicks_at_most_once (mb : Nat) (atTime : Bool) :
    ∀ (ticks : List CalTick) (sent : List String),
      (∀ t ∈ ticks, ∀ x, t.ok x = true) →
      (∀ t ∈ ticks, ((t.events.map CalEvent.id).Nodup)) →
      noClearRun mb atTime ticks sent = true →
      ∀ rid, (runCalTicks mb atTime ticks sent).2.count rid ≤ 1 ∧
        (rid ∈ sent → (runCalTicks mb atTime ticks sent).2.count rid = 0) := by
  intro ticks
  induction ticks with
  | nil =>
    intro sent _ _ _ rid
    exact ⟨by simp [runCalTicks], fun _ => by simp [runCalTicks]⟩
  | cons t ts ih =>
    intro sent hok hnd hnc rid
    have hokt : ∀ x, t.ok x = true := hok t (List.mem_cons_self _ _)
    have hndt := hnd t (List.mem_cons_self _ _)
    have hok' : ∀ u ∈ ts, ∀ x, u.ok x = true := fun u hu => hok u (List.mem_cons_of_mem _ hu)
    have hnd' : ∀ u ∈ ts, ((u.events.map CalEvent.id).Nodup) :=
      fun u hu => hnd u (List.mem_cons_of_mem _ hu)
    obtain ⟨hs1, hnc'⟩ := noClear_step mb atTime t ts sent hnc
    have ihs := ih (calTick mb atTime t sent).1 hok' hnd' hnc' rid
    have hlog : (runCalTicks mb atTime (t :: ts) sent).2 =
        neededReminders t.now mb atTime sent t.events ++
          (runCalTicks mb atTime ts (calTick mb atTime t sent).1).2 := by
      simp only [runCalTicks, calTick]
      rw [calSendLoop_log]
    rw [hlog, List.count_append]
    have hinst_nodup := neededReminders_nodup t.now mb atTime sent t.events hndt
    by_cases hmem : rid ∈ sent
    · have hni : rid ∉ neededReminders t.now mb atTime sent t.events := by
        intro hin
        exact (neededReminders_gen t.now mb atTime sent t.events rid hin).2 hmem
      have hc1 : (neededReminders t.now mb atTime sent t.events).count rid = 0 :=
        List.count_eq_zero.mpr hni
      have hrest : (runCalTicks mb atTime ts (calTick mb atTime t sent).1).2.count rid = 0 := by
        apply ihs.2
        rw [hs1]
        exact calSendLoop_superset t.ok _ sent rid hmem
      constructor
      · omega
      · intro _
        omega
    · by_cases hin : rid ∈ neededReminders t.now mb atTime sent t.events
      · have hc1 : (neededReminders t.now mb atTime sent t.events).count rid = 1 :=
          List.count_eq_one_of_mem hinst_nodup hin
        have hrest : (runCalTicks mb atTime ts (calTick mb atTime t sent).1).2.count rid = 0 := by
          apply ihs.2
          rw [hs1]
          exact calSendLoop_marks t.ok hokt _ sent rid hin
        constructor
        · omega
        · intro hc
          exact absurd hc hmem
      · have hc1 : (neededReminders t.now mb atTime sent t.events).count rid = 0 :=
          List.count_eq_zero.mpr hin
        constructor
        · have := ihs.1
          omega
        · intro hc
          exact absurd hc hmem

/-- C5 counterexample: one calendar event (id `ev1`, start 6000s) inside
the at-time window on two consecutive ticks; the Telegram send raises on
the first tick, so `mark_reminder_sent` is skipped and the second tick
invokes format+send for the same (event id, class) again — two
invocations across the tick sequence. -/
theorem C5_counterexample_failed_send_is_retried :
    (runCalTicks 15 true
      [⟨5800, [⟨"ev1", 6000⟩], fun _ => false⟩, ⟨5900, [⟨"ev1", 6000⟩], fun _ => false⟩]
      []).2.count (mkAtTimeId "ev1") = 2 := by
  decide

/-- C5 (amended): at-most-once delivery of calendar reminders holds for
runs in which every Telegram send succeeds, the sent-set stays within the
1000-entry safety-valve threshold, and each tick's event listing carries
distinct event ids: then the format+send step for any fixed (event id,
reminder class) pair — and indeed any reminder-instance id — is invoked
at most once across the whole tick sequence. -/
theorem C5_amended_at_most_once (ticks : List CalTick) (mb : Nat) (atTime : Bool)
    (hok : ∀ t ∈ ticks, ∀ x, t.ok x = true)
    (hnd : ∀ t ∈ ticks, ((t.events.map CalEvent.id).Nodup))
    (hnc : noClearRun mb atTime ticks [] = true) :
    ∀ e : String,
      (runCalTicks mb atTime ticks []).2.count (mkBeforeId e mb) ≤ 1 ∧
      (runCalTicks mb atTime ticks []).2.count (mkAtTimeId e) ≤ 1 :=
  fun e =>
    ⟨(runCalTicks_at_most_once mb atTime ticks [] hok hnd hnc (mkBeforeId e mb)).1,
     (runCalTicks_at_most_once mb atTime ticks [] hok hnd hnc (mkAtTimeId e)).1⟩

/-- Witness for the amended C5 theorem on a concrete one-tick run with a
successful send. -/
theorem C5_amended_witness :
    (∀ t ∈ [(⟨5800, [⟨"ev1", 6000⟩], fun _ => true⟩ : CalTick)], ∀ x, t.ok x = true) ∧
    (∀ t ∈ [(⟨5800, [⟨"ev1", 6000⟩], fun _ => true⟩ : CalTick)],
      ((t.events.map CalEvent.id).Nodup)) ∧
    noClearRun 15 true [(⟨5800, [⟨"ev1", 6000⟩], fun _ => true⟩ : CalTick)] [] = true ∧
    ((runCalTicks 15 true [(⟨5800, [⟨"ev1", 6000⟩], fun _ => true⟩ : CalTick)] []).2.count
        (mkBeforeId "ev1" 15) ≤ 1 ∧
     (runCalTicks 15 true [(⟨5800, [⟨"ev1", 6000⟩], fun _ => true⟩ : CalTick)] []).2.count
        (mkAtTimeId "ev1") ≤ 1) :=
  ⟨fun t ht x => by rcases List.mem_singleton.mp ht with rfl; rfl,
   fun t ht => by rcases List.mem_singleton.mp ht with rfl; decide,
   by decide,
   C5_amended_at_most_once [(⟨5800, [⟨"ev1", 6000⟩], fun _ => true⟩ : CalTick)] 15 true
     (fun t ht x => by rcases List.mem_singleton.mp ht with rfl; rfl)
     (fun t ht => by rcases List.mem_singleton.mp ht with rfl; decide)
     (by decide) "ev1"⟩
